import Mathlib

/-!
Verification of the route-to-content resolution core of the
fumadocs-monorepo-pkg repository: the Content Source Adapter
(`source.getPage`, `source.generateParams`), the catch-all Route Handler
(`apps/web/app/docs/[[...slug]]/page.tsx`), and the Layout Wrapper
(`apps/web/app/docs/layout.tsx`).

The adapter object itself is produced by the fumadocs loader in
`packages/docs/lib/source.ts`, which is re-exported by
`packages/docs/lib/index.ts`; its observable behaviour is pinned by the
contract `FumadocsSource` in
`specs/001-embed-docs-component/contracts/exports.ts`. The adapter
operations are therefore modelled from the specification, while the route
handler, metadata generator and layout are translated directly from the
TypeScript sources.
-/

namespace Fumadocs

/-- Table-of-contents item, after `TOCItem` in
`specs/001-embed-docs-component/contracts/exports.ts`: heading title,
anchor url, nesting depth. -/
structure TOCItem where
  title : String
  url : String
  depth : Nat
deriving DecidableEq, Repr

/-- Data carried by a documentation page, after `Page.data` in the
contracts file: frontmatter title, optional description, table of
contents, and an opaque renderable MDX body (modelled as an opaque
token). -/
structure PageData where
  title : String
  description : Option String
  toc : List TOCItem
  body : Nat
deriving DecidableEq, Repr

/-- A documentation page, after `Page` in the contracts file: full url,
identifying segment sequence `slugs`, and its data. -/
structure Page where
  url : String
  slugs : List String
  data : PageData
deriving DecidableEq, Repr

/-- A single static route parameter entry, after `StaticParam` in the
contracts file: `{ slug: string[] }`. -/
structure StaticParam where
  slug : List String
deriving DecidableEq, Repr

/-- Modelled from the spec: the Content Source Adapter's lookup operation
`source.getPage(slugs?)` (implemented by the fumadocs loader in
`packages/docs/lib/source.ts`, which is not among the sources; its
contract is `FumadocsSource.getPage`). It returns the Page matching the
given segment sequence, or a not-found signal (`none`) if none matches —
no partial matching, no redirects, no case-insensitivity. An absent slug
(`none`), as delivered by the catch-all route for `/docs`, denotes the
root, i.e. the empty segment sequence. The content store is the finite
list of pages the loader compiled. -/
def getPage (store : List Page) (slugs : Option (List String)) : Option Page :=
  store.find? (fun p => p.slugs == slugs.getD [])

/-- Modelled from the spec: the Content Source Adapter's enumeration
operation `source.generateParams()` (implemented in
`packages/docs/lib/source.ts`, not among the sources; its contract is
`FumadocsSource.generateParams`). It produces the full, finite, non-lazy
list of valid segment sequences, one `{ slug }` entry per existing page,
derived entirely from Page existence. -/
def generateParams (store : List Page) : List StaticParam :=
  store.map (fun p => ⟨p.slugs⟩)

/-- Navigation tree node, after `PageTreeNode` in the contracts file. -/
inductive PageTreeNode where
  | node (name : String) (url : Option String) (children : List PageTreeNode)

/-- Navigation tree for the sidebar, after `PageTree` in the contracts
file. -/
abbrev PageTree := List PageTreeNode

/-- The source object exported by `packages/docs/lib/index.ts`: the
content store behind `getPage`/`generateParams`, plus the navigation
`pageTree` consumed by the layout. -/
structure Source where
  store : List Page
  pageTree : PageTree

/-- Modelled from the spec: one invocation of `source.generateParams()`
against the source object. The operation is side-effect-free, so it
returns the parameter list together with the source state, unchanged. -/
def Source.generateParamsOp (s : Source) : List StaticParam × Source :=
  (generateParams s.store, s)

/-- Modelled from the spec: one invocation of `source.getPage(slugs)`
against the source object; a pure, synchronous lookup returning the
result together with the source state, unchanged. -/
def Source.getPageOp (s : Source) (slugs : Option (List String)) :
    Option Page × Source :=
  (getPage s.store slugs, s)

/-- Page metadata, after the `Metadata` fields that
`generateMetadata` in `apps/web/app/docs/[[...slug]]/page.tsx`
populates: title and description. `{}` is the empty metadata object. -/
structure Metadata where
  title : Option String := none
  description : Option String := none
deriving DecidableEq, Repr

/-- A rendered React element tree, restricted to the node shapes the two
source files under `apps/web/app/docs/` produce. -/
inductive RenderNode where
  /-- Arbitrary child content handed to the layout. -/
  | text (s : String)
  /-- The page body rendered as an MDXContent element with the default
  MDX component map. -/
  | mdxContent (body : Nat) (components : String)
  /-- A DocsTitle element holding the page title. -/
  | docsTitle (title : String)
  /-- A DocsDescription element holding the page description. -/
  | docsDescription (description : Option String)
  /-- A DocsBody element wrapping a child. -/
  | docsBody (child : RenderNode)
  /-- A DocsPage element, with its footer-enabled flag, toc, full flag,
  and its three children: title, description, body. -/
  | docsPage (footerEnabled : Bool) (toc : List TOCItem) (full : Bool)
      (titleChild : RenderNode) (descriptionChild : RenderNode)
      (bodyChild : RenderNode)
  /-- A DocsLayout element, with its theme-switch configuration and
  navigation tree, wrapping a child. -/
  | docsLayout (themeSwitchEnabled : Bool) (themeSwitchMode : String)
      (tree : PageTree) (child : RenderNode)

/-- Outcome of the route handler: either a rendered element tree, or the
standard not-found response raised by `notFound()`. -/
inductive HandlerResult where
  | rendered (output : RenderNode)
  | notFoundResponse

/-- The JSX returned by the `Page` component of
`apps/web/app/docs/[[...slug]]/page.tsx` (lines 73-81) for a found page:
a `DocsPage` with the footer disabled, the page's toc, `full={false}`,
and title / description / MDX body children. Total: rendering a found
page never raises. -/
def renderPage (page : Page) : RenderNode :=
  .docsPage false page.data.toc false
    (.docsTitle page.data.title)
    (.docsDescription page.data.description)
    (.docsBody (.mdxContent page.data.body "defaultMdxComponents"))

namespace DocsRoute

/-- The `generateStaticParams` export of
`apps/web/app/docs/[[...slug]]/page.tsx` (lines 38-40): it returns
`source.generateParams()`. -/
def generateStaticParams (store : List Page) : List StaticParam :=
  generateParams store

/-- The `generateMetadata` export of
`apps/web/app/docs/[[...slug]]/page.tsx` (lines 45-55): looks the page
up, returns the empty metadata object when absent, otherwise metadata
with the page's title and description. -/
def generateMetadata (store : List Page) (slug : Option (List String)) :
    Metadata :=
  match getPage store slug with
  | none => {}
  | some page =>
      { title := some page.data.title, description := page.data.description }

/-- The default-exported `Page` route handler of
`apps/web/app/docs/[[...slug]]/page.tsx`: a single synchronous
`source.getPage` call decides between `notFound()` and rendering the
found page. -/
def Page (store : List Page) (slug : Option (List String)) : HandlerResult :=
  match getPage store slug with
  | none => .notFoundResponse
  | some page => .rendered (renderPage page)

/-- The route handler as a transformer of the source state: the handler
of `apps/web/app/docs/[[...slug]]/page.tsx` only reads from the source,
so its state-passing translation returns the source unchanged alongside
the result. -/
def PageOp (s : Source) (slug : Option (List String)) :
    HandlerResult × Source :=
  (Page s.store slug, s)

end DocsRoute

/-- The `Layout` component of `apps/web/app/docs/layout.tsx`: wraps the
children in a `DocsLayout` with a fixed theme-switch configuration
(`enabled: false`, `mode: "light-dark"`) and the source's page tree. -/
def Layout (tree : PageTree) (children : RenderNode) : RenderNode :=
  .docsLayout false "light-dark" tree children

/-- Extracts the wrapped child of a layout node, when there is one. -/
def layoutChild : RenderNode → Option RenderNode
  | .docsLayout _ _ _ c => some c
  | _ => none

/-- Extracts the surrounding chrome of a layout node — everything except
the wrapped child: theme-switch configuration and navigation tree. -/
def layoutChrome : RenderNode → Option (Bool × String × PageTree)
  | .docsLayout e m t _ => some (e, m, t)
  | _ => none

/-- Concrete content store of the spec's concrete scenario: pages exactly
at the segment sequences `[]`, `["getting-started"]`, and
`["api", "reference"]`. -/
def demoStore : List Page :=
  [ ⟨"/docs", [], ⟨"Docs", some "Root", [⟨"Intro", "#intro", 1⟩], 0⟩⟩,
    ⟨"/docs/getting-started", ["getting-started"],
      ⟨"Getting Started", none, [], 1⟩⟩,
    ⟨"/docs/api/reference", ["api", "reference"],
      ⟨"API Reference", some "Ref", [], 2⟩⟩ ]

/-- Helper: `getPage` returns a Page exactly when some page of the store
has the looked-up segment sequence (an absent slug meaning the empty
sequence). -/
theorem getPage_isSome_iff (store : List Page) (slugs : Option (List String)) :
    (getPage store slugs).isSome ↔ ∃ p ∈ store, p.slugs = slugs.getD [] := by
  simp [getPage, List.find?_isSome]

/-- Helper: a Page returned by `getPage` belongs to the store and carries
exactly the looked-up segment sequence. -/
theorem getPage_eq_some (store : List Page) (slugs : Option (List String))
    (p : Page) (h : getPage store slugs = some p) :
    p ∈ store ∧ p.slugs = slugs.getD [] := by
  refine ⟨List.mem_of_find?_eq_some h, ?_⟩
  have hpred := List.find?_some h
  simpa using hpred

/-- Helper: `getPage` returns the not-found signal exactly when no page
of the store carries the looked-up segment sequence. -/
theorem getPage_eq_none_iff (store : List Page) (slugs : Option (List String)) :
    getPage store slugs = none ↔ ∀ p ∈ store, p.slugs ≠ slugs.getD [] := by
  simp [getPage, List.find?_eq_none]

/-- C1: for every segment sequence `s` in the list returned by the
enumeration operation (`generateStaticParams`, delegating to
`source.generateParams`), the lookup `getPage` on that same sequence
returns a non-absent Page: enumeration and lookup are round-trip
consistent, and every enumerated route parameter entry corresponds to an
existing Page. -/
theorem C1_enumeration_lookup_roundtrip (store : List Page) (s : StaticParam)
    (h : s ∈ DocsRoute.generateStaticParams store) :
    (getPage store (some s.slug)).isSome := by
  simp only [DocsRoute.generateStaticParams, generateParams,
    List.mem_map] at h
  obtain ⟨p, hp, rfl⟩ := h
  simp only [getPage, List.find?_isSome]
  exact ⟨p, hp, by simp⟩

/-- Witness for C1 at the concrete demo store and the enumerated entry
for the getting-started page. -/
theorem C1_witness :
    (⟨["getting-started"]⟩ : StaticParam) ∈
      DocsRoute.generateStaticParams demoStore ∧
    (getPage demoStore (some ["getting-started"])).isSome := by
  refine ⟨?_, C1_enumeration_lookup_roundtrip demoStore ⟨["getting-started"]⟩ ?_⟩ <;>
    decide

/-- C2: `getPage` applied to a segment sequence `s` returns a Page of the
store whose segment sequence equals `s` whenever it returns a Page, and
it returns the not-found signal `none` exactly when no Page of the store
matches `s`; `Option` leaves no third outcome. -/
theorem C2_getPage_functional_correctness (store : List Page) (s : List String) :
    (∀ p, getPage store (some s) = some p → p ∈ store ∧ p.slugs = s) ∧
    (getPage store (some s) = none ↔ ∀ p ∈ store, p.slugs ≠ s) := by
  constructor
  · intro p hp
    refine ⟨List.mem_of_find?_eq_some hp, ?_⟩
    have hpred := List.find?_some hp
    simpa using hpred
  · simp [getPage, List.find?_eq_none]

/-- Witness for C2: at the demo store, the page found for
getting-started is in the store and has exactly that segment sequence,
and lookup of an unmatched sequence is not-found. -/
theorem C2_witness :
    ((⟨"/docs/getting-started", ["getting-started"],
        ⟨"Getting Started", none, [], 1⟩⟩ : Page) ∈ demoStore ∧
      (⟨"/docs/getting-started", ["getting-started"],
        ⟨"Getting Started", none, [], 1⟩⟩ : Page).slugs = ["getting-started"]) ∧
    getPage demoStore (some ["missing"]) = none :=
  ⟨(C2_getPage_functional_correctness demoStore ["getting-started"]).1 _
      (by decide),
    (C2_getPage_functional_correctness demoStore ["missing"]).2.mpr
      (by decide)⟩

/-- C3: for every segment sequence `s` absent from the list returned by
the enumeration operation, `getPage` returns the not-found signal: no
partial (prefix) matching, no redirecting, no case-insensitive
matching. -/
theorem C3_not_enumerated_not_found (store : List Page) (s : List String)
    (h : (⟨s⟩ : StaticParam) ∉ DocsRoute.generateStaticParams store) :
    getPage store (some s) = none := by
  simp only [getPage, List.find?_eq_none, Option.getD_some, beq_iff_eq]
  intro p hp hslugs
  exact h (by
    simp only [DocsRoute.generateStaticParams, generateParams, List.mem_map]
    exact ⟨p, hp, by simp [hslugs]⟩)

/-- Witness for C3 at the demo store: a sequence differing from a valid
one only by case, a strict prefix of a valid sequence, and a strict
extension of a valid sequence all yield not-found. -/
theorem C3_witness :
    getPage demoStore (some ["Getting-Started"]) = none ∧
    getPage demoStore (some ["api"]) = none ∧
    getPage demoStore (some ["api", "reference", "extra"]) = none :=
  ⟨C3_not_enumerated_not_found demoStore ["Getting-Started"] (by decide),
    C3_not_enumerated_not_found demoStore ["api"] (by decide),
    C3_not_enumerated_not_found demoStore ["api", "reference", "extra"]
      (by decide)⟩

/-- C4: the route handler has exactly two outcomes, decided by the single
synchronous `getPage` call: when a Page matches, it renders that Page
(through the total function `renderPage`, which never raises); when none
matches, it emits the standard not-found response — never a silent empty
page. -/
theorem C4_handler_two_outcomes (store : List Page) (slug : Option (List String)) :
    (∃ p, getPage store slug = some p ∧
      DocsRoute.Page store slug = .rendered (renderPage p)) ∨
    (getPage store slug = none ∧
      DocsRoute.Page store slug = .notFoundResponse) := by
  cases h : getPage store slug with
  | none => exact Or.inr ⟨rfl, by simp [DocsRoute.Page, h]⟩
  | some p => exact Or.inl ⟨p, rfl, by simp [DocsRoute.Page, h]⟩

/-- C5: lookup of the empty segment sequence (equivalently, of the absent
slug the handler receives for the root route) returns the designated
root Page exactly when a root content entry exists, and the handler
renders it in exactly that case, emitting not-found otherwise. -/
theorem C5_root_lookup (store : List Page) :
    getPage store none = getPage store (some []) ∧
    (∀ p, getPage store none = some p → p ∈ store ∧ p.slugs = [] ∧
      DocsRoute.Page store none = .rendered (renderPage p)) ∧
    ((getPage store none).isSome ↔ ∃ p ∈ store, p.slugs = []) ∧
    (DocsRoute.Page store none = .notFoundResponse ↔
      ¬ ∃ p ∈ store, p.slugs = []) := by
  refine ⟨rfl, ?_, ?_, ?_⟩
  · intro p hp
    refine ⟨List.mem_of_find?_eq_some hp, ?_, by simp [DocsRoute.Page, hp]⟩
    have hpred := List.find?_some hp
    simpa using hpred
  · constructor
    · intro hs
      obtain ⟨p, hp⟩ := Option.isSome_iff_exists.mp hs
      refine ⟨p, List.mem_of_find?_eq_some hp, ?_⟩
      have hpred := List.find?_some hp
      simpa using hpred
    · rintro ⟨p, hmem, hslugs⟩
      simp only [getPage, List.find?_isSome]
      exact ⟨p, hmem, by simp [hslugs]⟩
  · cases h : getPage store none with
    | none =>
        have hforall := (getPage_eq_none_iff store none).mp h
        simp only [DocsRoute.Page, h]
        constructor
        · intro _
          rintro ⟨p, hmem, hslugs⟩
          exact hforall p hmem (by simpa using hslugs)
        · intro _
          trivial
    | some p =>
        have hp := getPage_eq_some store none p h
        simp only [DocsRoute.Page, h]
        constructor
        · intro hcontra
          exact HandlerResult.noConfusion hcontra
        · intro hne
          exact absurd ⟨p, hp.1, by simpa using hp.2⟩ hne

/-- Witness for C5 at the concrete demo store: lookup of the absent slug
finds the root page, which is in the store, has the empty segment
sequence, and is rendered by the handler. -/
theorem C5_witness :
    (⟨"/docs", [], ⟨"Docs", some "Root", [⟨"Intro", "#intro", 1⟩], 0⟩⟩ : Page) ∈
        demoStore ∧
    (⟨"/docs", [], ⟨"Docs", some "Root", [⟨"Intro", "#intro", 1⟩], 0⟩⟩ :
        Page).slugs = [] ∧
    DocsRoute.Page demoStore none =
      .rendered (renderPage
        ⟨"/docs", [], ⟨"Docs", some "Root", [⟨"Intro", "#intro", 1⟩], 0⟩⟩) :=
  (C5_root_lookup demoStore).2.1 _ (by decide)

/-- C6: for the concrete content store defining pages exactly at `[]`,
`["getting-started"]` and `["api", "reference"]`, the enumeration
operation returns exactly that set of segment sequences (as a set, with
no extra or missing entries), and lookup of `["api", "missing"]` is
not-found. -/
theorem C6_concrete_scenario :
    (∀ s : List String,
      (⟨s⟩ : StaticParam) ∈ DocsRoute.generateStaticParams demoStore ↔
        (s = [] ∨ s = ["getting-started"] ∨ s = ["api", "reference"])) ∧
    getPage demoStore (some ["api", "missing"]) = none := by
  constructor
  · intro s
    simp [DocsRoute.generateStaticParams, generateParams, demoStore]
  · decide

/-- C7: the enumeration operation is deterministic and side-effect-free:
it returns a full (one entry per page), finite, non-lazy list; a second
invocation against the same source returns the same list; and the
invocation leaves the source state unchanged — in particular every
subsequent `getPage` invocation returns what it would have returned
before. -/
theorem C7_generateParams_pure (s : Source) :
    s.generateParamsOp.1 = s.generateParamsOp.2.generateParamsOp.1 ∧
    s.generateParamsOp.2 = s ∧
    (∀ q, (s.generateParamsOp.2.getPageOp q).1 = (s.getPageOp q).1) ∧
    s.generateParamsOp.1.length = s.store.length := by
  refine ⟨rfl, rfl, fun q => rfl, ?_⟩
  simp [Source.generateParamsOp, generateParams]

/-- C8: the Layout Wrapper is pure composition: for every child, the
output is the child wrapped in the DocsLayout chrome; the child appears
unmodified in the body, and the surrounding chrome is identical for all
children — the fixed theme-switch configuration and the source's
navigation tree, with no state and no conditional logic. -/
theorem C8_layout_pure_composition (tree : PageTree) (c c' : RenderNode) :
    layoutChild (Layout tree c) = some c ∧
    layoutChrome (Layout tree c) = layoutChrome (Layout tree c') ∧
    layoutChrome (Layout tree c) = some (false, "light-dark", tree) :=
  ⟨rfl, rfl, rfl⟩

/-- C9: the Route Handler never mutates the Page objects or the source:
after the handler runs, the source state is unchanged, every lookup
returns what it returned before, and the looked-up Page — hence each of
its fields (title, description, toc, body) — is unchanged. -/
theorem C9_handler_frame (s : Source) (slug : Option (List String)) :
    (DocsRoute.PageOp s slug).2 = s ∧
    (∀ q, getPage (DocsRoute.PageOp s slug).2.store q = getPage s.store q) ∧
    (getPage (DocsRoute.PageOp s slug).2.store slug).map Page.data =
      (getPage s.store slug).map Page.data :=
  ⟨rfl, fun _ => rfl, rfl⟩

/-- C10: `generateMetadata` returns the empty metadata object when the
lookup is not-found (it neither raises nor emits a not-found response:
it is a total function into `Metadata`), and otherwise returns metadata
whose title is the found Page's title and whose description is the found
Page's description. -/
theorem C10_generateMetadata_correct (store : List Page)
    (slug : Option (List String)) :
    (getPage store slug = none → DocsRoute.generateMetadata store slug = {}) ∧
    (∀ p, getPage store slug = some p →
      DocsRoute.generateMetadata store slug =
        { title := some p.data.title, description := p.data.description }) := by
  constructor
  · intro h
    simp [DocsRoute.generateMetadata, h]
  · intro p h
    simp [DocsRoute.generateMetadata, h]

/-- Witness for C10 at the concrete demo store: a missing sequence yields
the empty metadata object, and the getting-started page yields its title
and description. -/
theorem C10_witness :
    DocsRoute.generateMetadata demoStore (some ["missing"]) = {} ∧
    DocsRoute.generateMetadata demoStore (some ["getting-started"]) =
      { title := some "Getting Started", description := none } :=
  ⟨(C10_generateMetadata_correct demoStore (some ["missing"])).1 (by decide),
    (C10_generateMetadata_correct demoStore (some ["getting-started"])).2
      ⟨"/docs/getting-started", ["getting-started"],
        ⟨"Getting Started", none, [], 1⟩⟩ (by decide)⟩

end Fumadocs
